import Mathlib

/-!
Verification of the gotel metrics library (instrument registry, metric
primitives, and async delivery pipeline) against its specification.

Go maps are embedded as association lists `List (String × String)`; the
list order is the iteration order that a `for k, v := range m` loop
observes.  Machine integers (`int64`) are embedded as `Int` or `Nat`
(the values involved never approach 2^63); `float64` values that only
flow through the code unchanged are embedded as `Rat`.
-/

namespace Gotel

/-- Iteration view of a Go `map[string]string`: the pairs in the order a
`range` loop yields them.  A real Go map has pairwise distinct keys. -/
abbrev LabelMap := List (String × String)

/-- One step of the string-building loop body of `metricKey`
(pkg/metrics/metrics.go:306-314): the accumulator is the string built so
far together with the `first` flag; the body appends a comma unless
`first` is set and then appends `k + "=" + v`. -/
def metricKeyStep (acc : String × Bool) (kv : String × String) : String × Bool :=
  ((if acc.2 then acc.1 else acc.1 ++ ",") ++ kv.1 ++ "=" ++ kv.2, false)

/-- Embedding of `metricKey` (pkg/metrics/metrics.go:300-317; the same
function is repeated verbatim in pkg/client/otel.go and the historical
variants): if `len(labels) == 0` return `name`; otherwise start from
`name + "\x7b"`, run the range loop, and append `"\x7d"`. -/
def metricKey (name : String) (labels : LabelMap) : String :=
  if labels.length = 0 then name
  else (labels.foldl metricKeyStep (name ++ "\x7b", true)).1 ++ "\x7d"

/-- Rendering of one label pair as `k=v`. -/
def renderPair (kv : String × String) : String :=
  kv.1 ++ "=" ++ kv.2

/-- Comma-separated join, the `k1=v1,k2=v2,...` shape named by the spec. -/
def commaJoin : List String → String
  | [] => ""
  | [x] => x
  | x :: y :: rest => x ++ "," ++ commaJoin (y :: rest)

/-- The rendering named by the spec, `name{k1=v1,k2=v2,...}`, applied to
the labels in the order given. -/
def renderKey (name : String) (labels : LabelMap) : String :=
  name ++ "\x7b" ++ commaJoin (labels.map renderPair) ++ "\x7d"

/-- Concatenation of a list of strings. -/
def catList : List String → String
  | [] => ""
  | x :: xs => x ++ catList xs

theorem commaJoin_cons (x : String) (l : List String) :
    commaJoin (x :: l) = x ++ catList (l.map fun s => "," ++ s) := by
  induction l generalizing x with
  | nil => simp [commaJoin, catList]
  | cons y rest ih =>
      rw [commaJoin, ih y]
      simp [catList, String.append_assoc]

theorem metricKeyStep_foldl_false (s : String) (l : LabelMap) :
    (l.foldl metricKeyStep (s, false)).1
      = s ++ catList (l.map fun kv => "," ++ renderPair kv) := by
  induction l generalizing s with
  | nil => simp [catList]
  | cons kv rest ih =>
      rw [List.foldl_cons, metricKeyStep]
      simp only [Bool.false_eq_true, if_false]
      rw [ih]
      simp [renderPair, catList, String.append_assoc]

/-- The loop of `metricKey` computes the comma-separated rendering of the
labels in iteration order. -/
theorem metricKey_loop_renders (name : String) (kv : String × String) (l : LabelMap) :
    metricKey name (kv :: l) = renderKey name (kv :: l) := by
  rw [metricKey]
  simp only [List.length_cons, Nat.succ_ne_zero, if_false]
  rw [List.foldl_cons, metricKeyStep]
  simp only [if_pos rfl]
  rw [metricKeyStep_foldl_false, renderKey]
  simp only [List.map_cons]
  rw [commaJoin_cons]
  simp [renderPair, String.append_assoc, List.map_map, Function.comp_def]

/-- C1 (counterexample): `metricKey` is not order-independent and does not
sort labels by key.  The two label maps below hold identical key/value
pairs (they are permutations of one another), yet iterating them in the
two different orders yields different keys, and the key produced by the
second iteration order is not the sorted rendering `m\x7ba=1,b=2\x7d`. -/
theorem metricKey_not_order_independent :
    List.Perm [("a", "1"), ("b", "2")] [("b", "2"), ("a", "1")]
      ∧ metricKey "m" [("a", "1"), ("b", "2")]
          ≠ metricKey "m" [("b", "2"), ("a", "1")]
      ∧ metricKey "m" [("b", "2"), ("a", "1")] ≠ "m\x7ba=1,b=2\x7d" := by
  decide

/-- C1 (amended): `metricKey(name, labels)` depends on (and is determined
by) the order in which the `range` loop iterates the labels map: a nil or
empty map yields exactly `name`, and a non-empty map yields `name`
followed by the labels rendered as `name\x7bk1=v1,k2=v2,...\x7d` in
iteration order — not sorted by key, so two maps holding identical pairs
iterated in different orders may produce different keys. -/
theorem metricKey_renders_iteration_order (name : String) (labels : LabelMap) :
    metricKey name labels
      = if labels = [] then name else renderKey name labels := by
  cases labels with
  | nil => simp [metricKey]
  | cons kv l =>
      rw [if_neg (List.cons_ne_nil kv l)]
      exact metricKey_loop_renders name kv l

/-! ## Instrument registry (pkg/metrics/metrics.go)

Metric primitives are identified by reference; references are embedded as
`Nat` identifiers handed out by the registry (`nextId`).  The exporter
client collaborator is embedded as an oracle: each `getOrCreate` call
carries the outcome `createOk` its `Create*` call would have (`true` =
instrument handle returned, `false` = error).  `createCalls` counts the
exporter-side instrument constructions performed.  In the sequential
interleaving model induced by the registry's RWMutex, the read-locked
fast path and the re-check under the write lock are the same lookup, so
`getOrCreate` is one atomic step. -/

/-- Errors of pkg/metrics/metrics.go:11-14. -/
inductive MErr where
  | creatingMetric
  | histBucketSizeTooLarge
deriving DecidableEq

/-- Lookup in a Go `map[string]*T` embedded as an association list. -/
def findKey (l : List (String × Nat)) (k : String) : Option Nat :=
  match l with
  | [] => none
  | (k', v) :: rest => if k' = k then some v else findKey rest k

/-- State of `registry` (pkg/metrics/metrics.go:62-70): the three
independent key-indexed maps, plus the instrument-construction call count and
the next fresh primitive reference. -/
structure RegState where
  counters : List (String × Nat)
  gauges : List (String × Nat)
  histograms : List (String × Nat)
  createCalls : Nat
  nextId : Nat
deriving DecidableEq

/-- Embedding of `registry.GetOrCreateCounter`
(pkg/metrics/metrics.go:92-130): look the key up (double-checked locking
collapses to one lookup in the sequential model); on a hit return the
stored primitive and `nil` error without touching the exporter; on a
miss ask the exporter client for an instrument — on its error return
`(nil, ErrCreatingMetric)` leaving the state untouched, otherwise store
and return a fresh primitive. -/
def getOrCreateCounter (r : RegState) (name _unit : String) (labels : LabelMap)
    (createOk : Bool) : (Option Nat × Option MErr) × RegState :=
  let key := metricKey name labels
  match findKey r.counters key with
  | some c => ((some c, none), r)
  | none =>
      if createOk then
        ((some r.nextId, none),
          { r with
              counters := (key, r.nextId) :: r.counters
              createCalls := r.createCalls + 1
              nextId := r.nextId + 1 })
      else ((none, some MErr.creatingMetric), r)

/-- Embedding of `registry.GetOrCreateGauge`
(pkg/metrics/metrics.go:132-170), same shape as the counter path. -/
def getOrCreateGauge (r : RegState) (name _unit : String) (labels : LabelMap)
    (createOk : Bool) : (Option Nat × Option MErr) × RegState :=
  let key := metricKey name labels
  match findKey r.gauges key with
  | some g => ((some g, none), r)
  | none =>
      if createOk then
        ((some r.nextId, none),
          { r with
              gauges := (key, r.nextId) :: r.gauges
              createCalls := r.createCalls + 1
              nextId := r.nextId + 1 })
      else ((none, some MErr.creatingMetric), r)

/-- Embedding of `registry.GetOrCreateHistogram`
(pkg/metrics/metrics.go:172-212): `len(buckets) > 20` fails first with
`ErrHistBucketSizeTooLarge`, before the key is even derived; otherwise
it follows the counter/gauge shape.  Bucket boundary values are opaque
to the registry logic (only their count is inspected; the slice is
forwarded to the exporter unread), so they are embedded as `Int`. -/
def getOrCreateHistogram (r : RegState) (name _unit : String) (buckets : List Int)
    (labels : LabelMap) (createOk : Bool) : (Option Nat × Option MErr) × RegState :=
  if buckets.length > 20 then ((none, some MErr.histBucketSizeTooLarge), r)
  else
    let key := metricKey name labels
    match findKey r.histograms key with
    | some h => ((some h, none), r)
    | none =>
        if createOk then
          ((some r.nextId, none),
            { r with
                histograms := (key, r.nextId) :: r.histograms
                createCalls := r.createCalls + 1
                nextId := r.nextId + 1 })
        else ((none, some MErr.creatingMetric), r)

/-- The three metric kinds of the registry. -/
inductive MKind where
  | counter
  | gauge
  | histogram
deriving DecidableEq

/-- One `getOrCreate` call: its kind, arguments, and the exporter
oracle outcome for the call. -/
structure Call where
  kind : MKind
  name : String
  unit : String
  buckets : List Int
  labels : LabelMap
  createOk : Bool
deriving DecidableEq

/-- State effect of one `getOrCreate` call. -/
def regStep (r : RegState) (c : Call) : RegState :=
  match c.kind with
  | MKind.counter => (getOrCreateCounter r c.name c.unit c.labels c.createOk).2
  | MKind.gauge => (getOrCreateGauge r c.name c.unit c.labels c.createOk).2
  | MKind.histogram =>
      (getOrCreateHistogram r c.name c.unit c.buckets c.labels c.createOk).2

/-- A sequence of `getOrCreate` calls against the registry. -/
def regRun (r : RegState) (cs : List Call) : RegState :=
  cs.foldl regStep r

theorem findKey_insert_preserved (l : List (String × Nat)) (key k : String)
    (i v : Nat) (hnone : findKey l key = none) (h : findKey l k = some v) :
    findKey ((key, i) :: l) k = some v := by
  rw [findKey]
  by_cases hk : key = k
  · rw [hk] at hnone
    rw [hnone] at h
    exact absurd h (by simp)
  · rw [if_neg hk]
    exact h

theorem getOrCreateCounter_counters_mono (r : RegState) (name u : String)
    (labels : LabelMap) (ok : Bool) (k : String) (v : Nat)
    (h : findKey r.counters k = some v) :
    findKey (getOrCreateCounter r name u labels ok).2.counters k = some v := by
  simp only [getOrCreateCounter]
  cases hfind : findKey r.counters (metricKey name labels) with
  | some c0 => exact h
  | none =>
      cases ok with
      | false => exact h
      | true => exact findKey_insert_preserved _ _ _ _ _ hfind h

theorem getOrCreateCounter_gauges_eq (r : RegState) (name u : String)
    (labels : LabelMap) (ok : Bool) :
    (getOrCreateCounter r name u labels ok).2.gauges = r.gauges := by
  simp only [getOrCreateCounter]
  cases findKey r.counters (metricKey name labels) <;> cases ok <;> rfl

theorem getOrCreateCounter_histograms_eq (r : RegState) (name u : String)
    (labels : LabelMap) (ok : Bool) :
    (getOrCreateCounter r name u labels ok).2.histograms = r.histograms := by
  simp only [getOrCreateCounter]
  cases findKey r.counters (metricKey name labels) <;> cases ok <;> rfl

theorem getOrCreateGauge_gauges_mono (r : RegState) (name u : String)
    (labels : LabelMap) (ok : Bool) (k : String) (v : Nat)
    (h : findKey r.gauges k = some v) :
    findKey (getOrCreateGauge r name u labels ok).2.gauges k = some v := by
  simp only [getOrCreateGauge]
  cases hfind : findKey r.gauges (metricKey name labels) with
  | some g0 => exact h
  | none =>
      cases ok with
      | false => exact h
      | true => exact findKey_insert_preserved _ _ _ _ _ hfind h

theorem getOrCreateGauge_counters_eq (r : RegState) (name u : String)
    (labels : LabelMap) (ok : Bool) :
    (getOrCreateGauge r name u labels ok).2.counters = r.counters := by
  simp only [getOrCreateGauge]
  cases findKey r.gauges (metricKey name labels) <;> cases ok <;> rfl

theorem getOrCreateGauge_histograms_eq (r : RegState) (name u : String)
    (labels : LabelMap) (ok : Bool) :
    (getOrCreateGauge r name u labels ok).2.histograms = r.histograms := by
  simp only [getOrCreateGauge]
  cases findKey r.gauges (metricKey name labels) <;> cases ok <;> rfl

theorem getOrCreateHistogram_histograms_mono (r : RegState) (name u : String)
    (buckets : List Int) (labels : LabelMap) (ok : Bool) (k : String) (v : Nat)
    (h : findKey r.histograms k = some v) :
    findKey (getOrCreateHistogram r name u buckets labels ok).2.histograms k
      = some v := by
  simp only [getOrCreateHistogram]
  by_cases hlen : buckets.length > 20
  · rw [if_pos hlen]
    exact h
  · rw [if_neg hlen]
    cases hfind : findKey r.histograms (metricKey name labels) with
    | some h0 => exact h
    | none =>
        cases ok with
        | false => exact h
        | true => exact findKey_insert_preserved _ _ _ _ _ hfind h

theorem getOrCreateHistogram_counters_eq (r : RegState) (name u : String)
    (buckets : List Int) (labels : LabelMap) (ok : Bool) :
    (getOrCreateHistogram r name u buckets labels ok).2.counters = r.counters := by
  simp only [getOrCreateHistogram]
  by_cases hlen : buckets.length > 20
  · rw [if_pos hlen]
  · rw [if_neg hlen]
    cases findKey r.histograms (metricKey name labels) <;> cases ok <;> rfl

theorem getOrCreateHistogram_gauges_eq (r : RegState) (name u : String)
    (buckets : List Int) (labels : LabelMap) (ok : Bool) :
    (getOrCreateHistogram r name u buckets labels ok).2.gauges = r.gauges := by
  simp only [getOrCreateHistogram]
  by_cases hlen : buckets.length > 20
  · rw [if_pos hlen]
  · rw [if_neg hlen]
    cases findKey r.histograms (metricKey name labels) <;> cases ok <;> rfl

theorem regStep_counters_mono (r : RegState) (c : Call) (k : String) (v : Nat)
    (h : findKey r.counters k = some v) :
    findKey (regStep r c).counters k = some v := by
  cases hc : c.kind <;> simp only [regStep, hc]
  · exact getOrCreateCounter_counters_mono _ _ _ _ _ _ _ h
  · rw [getOrCreateGauge_counters_eq]
    exact h
  · rw [getOrCreateHistogram_counters_eq]
    exact h

theorem regStep_gauges_mono (r : RegState) (c : Call) (k : String) (v : Nat)
    (h : findKey r.gauges k = some v) :
    findKey (regStep r c).gauges k = some v := by
  cases hc : c.kind <;> simp only [regStep, hc]
  · rw [getOrCreateCounter_gauges_eq]
    exact h
  · exact getOrCreateGauge_gauges_mono _ _ _ _ _ _ _ h
  · rw [getOrCreateHistogram_gauges_eq]
    exact h

theorem regStep_histograms_mono (r : RegState) (c : Call) (k : String) (v : Nat)
    (h : findKey r.histograms k = some v) :
    findKey (regStep r c).histograms k = some v := by
  cases hc : c.kind <;> simp only [regStep, hc]
  · rw [getOrCreateCounter_histograms_eq]
    exact h
  · rw [getOrCreateGauge_histograms_eq]
    exact h
  · exact getOrCreateHistogram_histograms_mono _ _ _ _ _ _ _ _ h

theorem regRun_counters_mono (cs : List Call) (r : RegState) (k : String) (v : Nat)
    (h : findKey r.counters k = some v) :
    findKey (regRun r cs).counters k = some v := by
  induction cs generalizing r with
  | nil => exact h
  | cons c rest ih => exact ih (regStep r c) (regStep_counters_mono r c k v h)

theorem regRun_gauges_mono (cs : List Call) (r : RegState) (k : String) (v : Nat)
    (h : findKey r.gauges k = some v) :
    findKey (regRun r cs).gauges k = some v := by
  induction cs generalizing r with
  | nil => exact h
  | cons c rest ih => exact ih (regStep r c) (regStep_gauges_mono r c k v h)

theorem regRun_histograms_mono (cs : List Call) (r : RegState) (k : String) (v : Nat)
    (h : findKey r.histograms k = some v) :
    findKey (regRun r cs).histograms k = some v := by
  induction cs generalizing r with
  | nil => exact h
  | cons c rest ih => exact ih (regStep r c) (regStep_histograms_mono r c k v h)

/-- Concrete registry state used by the C2 counterexample and the
witnesses: one counter, one gauge and one histogram already stored. -/
def regW : RegState :=
  { counters := [("c", 1)], gauges := [("g", 2)], histograms := [("h", 3)]
    createCalls := 3, nextId := 4 }

/-- A concrete call used by the C2 witness run. -/
def callW : Call :=
  { kind := MKind.counter, name := "x", unit := "u", buckets := []
    labels := [("p", "q")], createOk := true }

/-- C2 (counterexample): it is not true that once a key is present every
subsequent `getOrCreate` for that kind and key returns the stored
primitive with a `nil` error: `GetOrCreateHistogram`
(pkg/metrics/metrics.go:174-176) checks `len(buckets) > 20` before the
cache lookup, so a call for the already-cached histogram key "h" of
`regW` made with a 21-element bucket slice returns
`(nil, ErrHistBucketSizeTooLarge)` instead of the cached primitive. -/
theorem registry_cached_histogram_hit_can_error :
    findKey regW.histograms (metricKey "h" []) = some 3
    ∧ getOrCreateHistogram regW "h" "u" (List.replicate 21 0) [] true
        ≠ ((some 3, none), regW)
    ∧ getOrCreateHistogram regW "h" "u" (List.replicate 21 0) [] true
        = ((none, some MErr.histBucketSizeTooLarge), regW) := by
  decide

/-- C2 (amended): once a primitive is stored for a (kind, key), any
`getOrCreate` for that kind and key returns exactly that primitive with
`nil` error and leaves the registry state — including the exporter-call
count — fully unchanged (so no exporter-side instrument is created for a
cached key), with one exception forced by the guard order: a histogram
`getOrCreate` whose buckets argument has more than 20 entries returns
`ErrHistBucketSizeTooLarge` even when the key is cached (still with no
exporter call and the state unchanged); histogram hits with at most 20
buckets and all counter/gauge hits return the cached primitive.  No
sequence of `getOrCreate` calls of any kind ever removes or replaces a
stored entry.  Together these give: at most one primitive, and exactly
one exporter-side instrument, is ever created per (kind, key). -/
theorem registry_at_most_one_primitive :
    (∀ (r : RegState) (name u : String) (labels : LabelMap) (ok : Bool) (c : Nat),
        findKey r.counters (metricKey name labels) = some c →
          getOrCreateCounter r name u labels ok = ((some c, none), r))
    ∧ (∀ (r : RegState) (name u : String) (labels : LabelMap) (ok : Bool) (g : Nat),
        findKey r.gauges (metricKey name labels) = some g →
          getOrCreateGauge r name u labels ok = ((some g, none), r))
    ∧ (∀ (r : RegState) (name u : String) (buckets : List Int) (labels : LabelMap)
          (ok : Bool) (hId : Nat),
        buckets.length ≤ 20 →
        findKey r.histograms (metricKey name labels) = some hId →
          getOrCreateHistogram r name u buckets labels ok = ((some hId, none), r))
    ∧ (∀ (r : RegState) (name u : String) (buckets : List Int) (labels : LabelMap)
          (ok : Bool) (hId : Nat),
        buckets.length > 20 →
        findKey r.histograms (metricKey name labels) = some hId →
          getOrCreateHistogram r name u buckets labels ok
            = ((none, some MErr.histBucketSizeTooLarge), r))
    ∧ (∀ (r : RegState) (cs : List Call) (k : String) (v : Nat),
        findKey r.counters k = some v → findKey (regRun r cs).counters k = some v)
    ∧ (∀ (r : RegState) (cs : List Call) (k : String) (v : Nat),
        findKey r.gauges k = some v → findKey (regRun r cs).gauges k = some v)
    ∧ (∀ (r : RegState) (cs : List Call) (k : String) (v : Nat),
        findKey r.histograms k = some v →
          findKey (regRun r cs).histograms k = some v) := by
  refine ⟨?_, ?_, ?_, ?_, ?_, ?_, ?_⟩
  · intro r name u labels ok c h
    simp [getOrCreateCounter, h]
  · intro r name u labels ok g h
    simp [getOrCreateGauge, h]
  · intro r name u buckets labels ok hId hlen h
    simp [getOrCreateHistogram, Nat.not_lt.mpr hlen, h]
  · intro r name u buckets labels ok hId hgt _h
    simp [getOrCreateHistogram, hgt]
  · intro r cs k v h
    exact regRun_counters_mono cs r k v h
  · intro r cs k v h
    exact regRun_gauges_mono cs r k v h
  · intro r cs k v h
    exact regRun_histograms_mono cs r k v h

/-- Witness for C2 at a concrete registry state and a concrete run. -/
theorem registry_at_most_one_primitive_witness :
    getOrCreateCounter regW "c" "u" [] true = ((some 1, none), regW)
    ∧ getOrCreateGauge regW "g" "u" [] true = ((some 2, none), regW)
    ∧ getOrCreateHistogram regW "h" "u" [0, 1] [] true = ((some 3, none), regW)
    ∧ getOrCreateHistogram regW "h" "u" (List.replicate 21 0) [] true
        = ((none, some MErr.histBucketSizeTooLarge), regW)
    ∧ findKey (regRun regW [callW]).counters "c" = some 1
    ∧ findKey (regRun regW [callW]).gauges "g" = some 2
    ∧ findKey (regRun regW [callW]).histograms "h" = some 3 :=
  ⟨registry_at_most_one_primitive.1 regW "c" "u" [] true 1 (by decide),
   registry_at_most_one_primitive.2.1 regW "g" "u" [] true 2 (by decide),
   registry_at_most_one_primitive.2.2.1 regW "h" "u" [0, 1] [] true 3
     (by decide) (by decide),
   registry_at_most_one_primitive.2.2.2.1 regW "h" "u" (List.replicate 21 0)
     [] true 3 (by decide) (by decide),
   registry_at_most_one_primitive.2.2.2.2.1 regW [callW] "c" 1 (by decide),
   registry_at_most_one_primitive.2.2.2.2.2.1 regW [callW] "g" 2 (by decide),
   registry_at_most_one_primitive.2.2.2.2.2.2 regW [callW] "h" 3 (by decide)⟩

/-- C6: when the exporter client's instrument construction fails on a key
not yet in the registry, `GetOrCreateCounter` returns a `nil` primitive
together with `ErrCreatingMetric` and leaves the registry state fully
unchanged — no detached local-only primitive is installed (policy (a)). -/
theorem counter_create_error_no_primitive (r : RegState) (name u : String)
    (labels : LabelMap)
    (h : findKey r.counters (metricKey name labels) = none) :
    getOrCreateCounter r name u labels false
      = ((none, some MErr.creatingMetric), r) := by
  simp [getOrCreateCounter, h]

/-- The empty registry state, as built by `NewRegistry`. -/
def regEmpty : RegState :=
  { counters := [], gauges := [], histograms := [], createCalls := 0, nextId := 0 }

/-- Witness for C6 on the empty registry. -/
theorem counter_create_error_no_primitive_witness :
    getOrCreateCounter regEmpty "m" "u" [("a", "1")] false
      = ((none, some MErr.creatingMetric), regEmpty) :=
  counter_create_error_no_primitive regEmpty "m" "u" [("a", "1")] (by decide)

/-- C8: histogram creation with more than 20 buckets fails fast with
`ErrHistBucketSizeTooLarge`, returns no primitive and leaves the state
(including registry maps and the exporter-call count) unchanged; with at
most 20 buckets the guard passes — the call never produces the
too-many-buckets error. -/
theorem histogram_bucket_guard (r : RegState) (name u : String)
    (buckets : List Int) (labels : LabelMap) (ok : Bool) :
    (buckets.length > 20 →
        getOrCreateHistogram r name u buckets labels ok
          = ((none, some MErr.histBucketSizeTooLarge), r))
    ∧ (buckets.length ≤ 20 →
        (getOrCreateHistogram r name u buckets labels ok).1.2
          ≠ some MErr.histBucketSizeTooLarge) := by
  constructor
  · intro hgt
    simp [getOrCreateHistogram, hgt]
  · intro hle
    simp only [getOrCreateHistogram, if_neg (Nat.not_lt.mpr hle)]
    cases findKey r.histograms (metricKey name labels) with
    | some h0 => simp
    | none => cases ok <;> simp

/-- Witness for C8 with 21 buckets (guard trips) and 2 buckets (guard
passes). -/
theorem histogram_bucket_guard_witness :
    getOrCreateHistogram regEmpty "m" "u" (List.replicate 21 0) [] true
      = ((none, some MErr.histBucketSizeTooLarge), regEmpty)
    ∧ (getOrCreateHistogram regEmpty "m" "u" [0, 1] [] true).1.2
      ≠ some MErr.histBucketSizeTooLarge :=
  ⟨(histogram_bucket_guard regEmpty "m" "u" (List.replicate 21 0) [] true).1
      (by decide),
   (histogram_bucket_guard regEmpty "m" "u" [0, 1] [] true).2 (by decide)⟩

/-! ## Async delivery pipeline (gotel.go)

Time is embedded as `Int` (nanoseconds); `time.Time` subtraction becomes
integer subtraction.  The buffered signal channel is represented by its
occupancy `chanLen` against capacity `chanCap` (a non-blocking send
succeeds exactly when there is room).  The ants goroutine pool (external
dependency `github.com/panjf2000/ants/v2`) is modelled from its
documented submit contract; `flushCalls` counts invocations of the
exporter client's `ForceFlush`. -/

/-- State of the fallback goroutine pool created by `New`
(gotel.go:66-77). -/
structure PoolState where
  cap : Nat
  running : Nat
  closed : Bool
  nonblocking : Bool
deriving DecidableEq

/-- Outcome of `ants.Pool.Submit` as seen by the caller. -/
inductive SubmitOutcome where
  | accepted
  | blocked
  | err
deriving DecidableEq

/-- Submit contract of the ants pool (external collaborator, modelled
from the library's documented semantics as configured in gotel.go): a
released/closed pool returns an error; a pool with a free worker accepts
the task; a saturated pool returns `ErrPoolOverload` when the pool was
built with `WithNonblocking(true)`, and otherwise blocks the submitting
goroutine until a worker frees (gotel.go passes `WithNonblocking(false)`
and no `WithMaxBlockingTasks`, so blocking waiters are unbounded). -/
def poolSubmit (p : PoolState) : SubmitOutcome :=
  if p.closed then SubmitOutcome.err
  else if p.running < p.cap then SubmitOutcome.accepted
  else if p.nonblocking then SubmitOutcome.err
  else SubmitOutcome.blocked

/-- The pool as constructed by `New` (gotel.go:66-72): capacity 10, or
one tenth of the metric buffer size when that is larger than 10, and
`WithNonblocking(false)`. -/
def newPool (metricBufferSize : Nat) : PoolState :=
  { cap := if metricBufferSize > 10 then metricBufferSize / 10 else 10
    running := 0, closed := false, nonblocking := false }

/-- State of the `GoTel` client relevant to the delivery pipeline
(gotel.go:21-40). -/
structure GoTelState where
  chanLen : Nat
  chanCap : Nat
  lastMetricsSent : Int
  minSendInterval : Int
  flushCalls : Nat
  droppedRequests : Nat
  pool : PoolState
deriving DecidableEq

/-- How a `SendMetricsAsync` call returned to its caller. -/
inductive AsyncOutcome where
  | queuedOnChan
  | delegatedToPool
  | blockedOnPool
  | droppedRequest
deriving DecidableEq

/-- Embedding of `GoTel.sendMetricsWithRateLimit` (gotel.go:262-281):
under the rate-limit lock, skip when `now - lastMetricsSent <
minSendInterval`; otherwise stamp `lastMetricsSent = now` and call the
exporter's `ForceFlush` exactly once (its error is only logged). -/
def sendMetricsWithRateLimit (s : GoTelState) (now : Int) : GoTelState :=
  if now - s.lastMetricsSent < s.minSendInterval then s
  else { s with lastMetricsSent := now, flushCalls := s.flushCalls + 1 }

/-- Embedding of `GoTel.SendMetricsSync` (gotel.go:120-135): the same
rate-limit check inline on the caller, returning `nil` when skipped and
the `ForceFlush` result (`flushResult`) otherwise. -/
def sendMetricsSync (s : GoTelState) (now : Int) (flushResult : Option String) :
    Option String × GoTelState :=
  if now - s.lastMetricsSent < s.minSendInterval then (none, s)
  else (flushResult, { s with lastMetricsSent := now, flushCalls := s.flushCalls + 1 })

/-- Embedding of `GoTel.SendMetricsAsync` (gotel.go:139-162): try a
non-blocking send on the buffered channel; if the channel is full, submit
the rate-limited flush to the goroutine pool, and only when that submit
returns an error increment `droppedRequests` atomically. -/
def sendMetricsAsync (s : GoTelState) : AsyncOutcome × GoTelState :=
  if s.chanLen < s.chanCap then
    (AsyncOutcome.queuedOnChan, { s with chanLen := s.chanLen + 1 })
  else
    match poolSubmit s.pool with
    | SubmitOutcome.accepted =>
        (AsyncOutcome.delegatedToPool,
          { s with pool := { s.pool with running := s.pool.running + 1 } })
    | SubmitOutcome.blocked => (AsyncOutcome.blockedOnPool, s)
    | SubmitOutcome.err =>
        (AsyncOutcome.droppedRequest,
          { s with droppedRequests := s.droppedRequests + 1 })

/-- The three `select` sources of the background worker
(gotel.go:242-260). -/
inductive WorkerTrigger where
  | ctxDone
  | tick
  | chanSignal
deriving DecidableEq

/-- One iteration of `GoTel.metricsWorker` (gotel.go:242-260): any of the
three triggers runs `sendMetricsWithRateLimit`; receiving from the
channel also frees one buffered slot. -/
def workerStep (s : GoTelState) (t : WorkerTrigger) (now : Int) : GoTelState :=
  match t with
  | WorkerTrigger.chanSignal =>
      sendMetricsWithRateLimit { s with chanLen := s.chanLen - 1 } now
  | _ => sendMetricsWithRateLimit s now

/-- C3: a `SendMetricsAsync` call increments `droppedRequests` by exactly
one precisely when the buffered channel rejects the enqueue (it is full)
and the pool submit returns an error; in every other outcome the counter
is unchanged, and neither the rate-limited flush, the synchronous send,
nor a worker-loop iteration ever changes it. -/
theorem droppedRequests_increment_iff (s : GoTelState) (now : Int)
    (flushResult : Option String) (t : WorkerTrigger) :
    ((sendMetricsAsync s).2.droppedRequests = s.droppedRequests + 1
        ↔ ¬ s.chanLen < s.chanCap ∧ poolSubmit s.pool = SubmitOutcome.err)
    ∧ (¬ (¬ s.chanLen < s.chanCap ∧ poolSubmit s.pool = SubmitOutcome.err) →
        (sendMetricsAsync s).2.droppedRequests = s.droppedRequests)
    ∧ (sendMetricsWithRateLimit s now).droppedRequests = s.droppedRequests
    ∧ (sendMetricsSync s now flushResult).2.droppedRequests = s.droppedRequests
    ∧ (workerStep s t now).droppedRequests = s.droppedRequests := by
  refine ⟨?_, ?_, ?_, ?_, ?_⟩
  · by_cases hc : s.chanLen < s.chanCap
    · simp [sendMetricsAsync, hc]
    · cases hp : poolSubmit s.pool <;> simp [sendMetricsAsync, hc, hp]
  · intro hno
    by_cases hc : s.chanLen < s.chanCap
    · simp [sendMetricsAsync, hc]
    · cases hp : poolSubmit s.pool with
      | err => exact absurd ⟨hc, hp⟩ hno
      | accepted => simp [sendMetricsAsync, hc, hp]
      | blocked => simp [sendMetricsAsync, hc, hp]
  · by_cases hr : now - s.lastMetricsSent < s.minSendInterval <;>
      simp [sendMetricsWithRateLimit, hr]
  · by_cases hr : now - s.lastMetricsSent < s.minSendInterval <;>
      simp [sendMetricsSync, hr]
  · cases t <;>
      · unfold workerStep
        by_cases hr2 : now - s.lastMetricsSent < s.minSendInterval <;>
          simp [sendMetricsWithRateLimit] <;> split <;> rfl

/-- A pipeline state with room in the channel. -/
def gotelRoomy : GoTelState :=
  { chanLen := 2, chanCap := 5, lastMetricsSent := 0, minSendInterval := 10
    flushCalls := 0, droppedRequests := 7, pool := newPool 50 }

/-- A pipeline state whose channel and pool (capacity 5 = 50/10, built by
`New` with buffer size 50) are both saturated, with the pool still open. -/
def gotelSaturated : GoTelState :=
  { chanLen := 5, chanCap := 5, lastMetricsSent := 0, minSendInterval := 10
    flushCalls := 0, droppedRequests := 7
    pool := { newPool 50 with running := 5 } }

/-- A pipeline state whose channel is full and whose pool was released. -/
def gotelClosedPool : GoTelState :=
  { gotelSaturated with pool := { gotelSaturated.pool with closed := true } }

/-- Witness for C3 at concrete saturated and non-saturated states. -/
theorem droppedRequests_increment_iff_witness :
    (sendMetricsAsync gotelClosedPool).2.droppedRequests
        = gotelClosedPool.droppedRequests + 1
    ∧ (sendMetricsAsync gotelRoomy).2.droppedRequests
        = gotelRoomy.droppedRequests
    ∧ (sendMetricsWithRateLimit gotelRoomy 3).droppedRequests
        = gotelRoomy.droppedRequests :=
  ⟨((droppedRequests_increment_iff gotelClosedPool 3 none
      WorkerTrigger.tick).1).mpr (by decide),
   (droppedRequests_increment_iff gotelRoomy 3 none
      WorkerTrigger.tick).2.1 (by decide),
   (droppedRequests_increment_iff gotelRoomy 3 none WorkerTrigger.tick).2.2.1⟩

/-- C4 (counterexample): the pool is built with `WithNonblocking(false)`,
so when both the channel and the pool are saturated but the pool is still
open, the submit inside `SendMetricsAsync` blocks the calling goroutine
— the call does not return immediately and `droppedRequests` is NOT
incremented, contradicting the claim that on double saturation the call
increments the counter and returns at once without ever blocking. -/
theorem sendMetricsAsync_blocks_on_saturation :
    (newPool 50).nonblocking = false
    ∧ poolSubmit gotelSaturated.pool = SubmitOutcome.blocked
    ∧ (sendMetricsAsync gotelSaturated).1 = AsyncOutcome.blockedOnPool
    ∧ (sendMetricsAsync gotelSaturated).2.droppedRequests
        = gotelSaturated.droppedRequests
    ∧ ¬ ((sendMetricsAsync gotelSaturated).1 = AsyncOutcome.droppedRequest
          ∧ (sendMetricsAsync gotelSaturated).2.droppedRequests
              = gotelSaturated.droppedRequests + 1) := by
  decide

/-- C4 (amended): `SendMetricsAsync` returns without blocking whenever
the buffered channel has room (enqueue) or the pool has a free worker
(delegate), in both cases leaving `droppedRequests` unchanged; but the
pool submit is blocking (`WithNonblocking(false)`), so with the channel
full and the pool saturated-but-open the call blocks the caller until a
worker frees, with no drop recorded; `droppedRequests` is incremented —
and the call returns immediately — only when the submit itself errors,
i.e. when the pool is closed/released. -/
theorem sendMetricsAsync_outcomes (s : GoTelState) :
    (s.chanLen < s.chanCap →
        sendMetricsAsync s
          = (AsyncOutcome.queuedOnChan, { s with chanLen := s.chanLen + 1 }))
    ∧ (¬ s.chanLen < s.chanCap → s.pool.closed = false →
        s.pool.running < s.pool.cap →
        sendMetricsAsync s
          = (AsyncOutcome.delegatedToPool,
              { s with pool := { s.pool with running := s.pool.running + 1 } }))
    ∧ (¬ s.chanLen < s.chanCap → s.pool.closed = false →
        ¬ s.pool.running < s.pool.cap → s.pool.nonblocking = false →
        sendMetricsAsync s = (AsyncOutcome.blockedOnPool, s))
    ∧ (¬ s.chanLen < s.chanCap → s.pool.closed = true →
        sendMetricsAsync s
          = (AsyncOutcome.droppedRequest,
              { s with droppedRequests := s.droppedRequests + 1 })) := by
  refine ⟨?_, ?_, ?_, ?_⟩
  · intro hc
    simp [sendMetricsAsync, hc]
  · intro hc hcl hr
    simp [sendMetricsAsync, hc, poolSubmit, hcl, hr]
  · intro hc hcl hr hnb
    simp [sendMetricsAsync, hc, poolSubmit, hcl, hr, hnb]
  · intro hc hcl
    simp [sendMetricsAsync, hc, poolSubmit, hcl]

/-- Witness for the amended C4 at the three concrete states. -/
theorem sendMetricsAsync_outcomes_witness :
    sendMetricsAsync gotelRoomy
      = (AsyncOutcome.queuedOnChan, { gotelRoomy with chanLen := 3 })
    ∧ sendMetricsAsync gotelSaturated
      = (AsyncOutcome.blockedOnPool, gotelSaturated)
    ∧ sendMetricsAsync gotelClosedPool
      = (AsyncOutcome.droppedRequest,
          { gotelClosedPool with droppedRequests := 8 }) :=
  ⟨(sendMetricsAsync_outcomes gotelRoomy).1 (by decide),
   (sendMetricsAsync_outcomes gotelSaturated).2.2.1 (by decide) (by decide)
     (by decide) (by decide),
   (sendMetricsAsync_outcomes gotelClosedPool).2.2.2 (by decide) (by decide)⟩

/-- C5: a rate-limited flush invocation at time `now` with
`now - lastFlushTime < minSendInterval` performs no exporter flush,
leaves `lastFlushTime` unchanged and yields no error; otherwise it sets
`lastFlushTime = now` and calls the exporter flush exactly once.  Hence,
starting from a state in which the first trigger is not itself
suppressed, two triggers within `minSendInterval` of each other produce
exactly one exporter flush, while two triggers spaced at least
`minSendInterval` apart each produce their own. -/
theorem flush_rate_limiting (s : GoTelState) (now t1 t2 : Int)
    (flushResult : Option String) :
    (now - s.lastMetricsSent < s.minSendInterval →
        sendMetricsWithRateLimit s now = s
        ∧ sendMetricsSync s now flushResult = (none, s))
    ∧ (s.minSendInterval ≤ now - s.lastMetricsSent →
        sendMetricsWithRateLimit s now
          = { s with lastMetricsSent := now, flushCalls := s.flushCalls + 1 }
        ∧ sendMetricsSync s now flushResult
          = (flushResult,
              { s with lastMetricsSent := now, flushCalls := s.flushCalls + 1 }))
    ∧ (s.minSendInterval ≤ t1 - s.lastMetricsSent →
        t2 - t1 < s.minSendInterval →
        (sendMetricsWithRateLimit (sendMetricsWithRateLimit s t1) t2).flushCalls
          = s.flushCalls + 1)
    ∧ (s.minSendInterval ≤ t1 - s.lastMetricsSent →
        s.minSendInterval ≤ t2 - t1 →
        (sendMetricsWithRateLimit (sendMetricsWithRateLimit s t1) t2).flushCalls
          = s.flushCalls + 2) := by
  refine ⟨?_, ?_, ?_, ?_⟩
  · intro h
    exact ⟨by simp [sendMetricsWithRateLimit, h], by simp [sendMetricsSync, h]⟩
  · intro h
    have h' : ¬ now - s.lastMetricsSent < s.minSendInterval := by omega
    exact ⟨by simp [sendMetricsWithRateLimit, h'], by simp [sendMetricsSync, h']⟩
  · intro h1 h2
    have h1' : ¬ t1 - s.lastMetricsSent < s.minSendInterval := by omega
    simp [sendMetricsWithRateLimit, h1', h2]
  · intro h1 h2
    have h1' : ¬ t1 - s.lastMetricsSent < s.minSendInterval := by omega
    have h2' : ¬ t2 - t1 < s.minSendInterval := by omega
    simp [sendMetricsWithRateLimit, h1', h2']

/-- Witness for C5 with `minSendInterval = 10`, last flush at 0, triggers
at 3 (suppressed), 15 (flushes), then 15/20 (one flush) and 15/30 (two
flushes). -/
theorem flush_rate_limiting_witness :
    sendMetricsWithRateLimit gotelRoomy 3 = gotelRoomy
    ∧ sendMetricsSync gotelRoomy 3 (some "boom") = (none, gotelRoomy)
    ∧ (sendMetricsWithRateLimit gotelRoomy 15).flushCalls = 1
    ∧ (sendMetricsWithRateLimit (sendMetricsWithRateLimit gotelRoomy 15) 20).flushCalls = 1
    ∧ (sendMetricsWithRateLimit (sendMetricsWithRateLimit gotelRoomy 15) 30).flushCalls = 2 :=
  ⟨((flush_rate_limiting gotelRoomy 3 0 0 (some "boom")).1 (by decide)).1,
   ((flush_rate_limiting gotelRoomy 3 0 0 (some "boom")).1 (by decide)).2,
   by rw [((flush_rate_limiting gotelRoomy 15 0 0 none).2.1 (by decide)).1]; rfl,
   (flush_rate_limiting gotelRoomy 0 15 20 none).2.2.1 (by decide) (by decide),
   (flush_rate_limiting gotelRoomy 0 15 30 none).2.2.2 (by decide) (by decide)⟩

/-! ## Metric primitives (pkg/metrics/metrics.go:233-298)

Each mutation is embedded as a function returning
`Except String (result × new state × event trace)`: the `Except.error`
case is Go's panic (reachable only by invoking a method on a nil
exporter interface), and the trace records the mutex and exporter-handle
events in program order — `MEv.unlock` sits at the end of each trace
because every method releases its mutex with `defer`.  Counter values
are `int64`/`Int`; gauge and histogram values are `float64`, embedded as
`Rat` since the code only stores and forwards them. -/

/-- Observable events of one primitive-mutation call. -/
inductive MEv where
  | lock
  | unlock
  | otelAdd (delta : Int)
  | otelSet (value : Rat)
  | otelRecord (value : Rat)
deriving DecidableEq

/-- The `Counter` struct (pkg/metrics/metrics.go:33-41): a cached value
and an optional exporter handle (`nil` when absent).  Name, unit and
labels are immutable after creation and play no role in the mutation
contracts. -/
structure CounterM where
  value : Int
  otelCounter : Option Nat
deriving DecidableEq

/-- Invoking `Add` on the exporter counter handle: on a nil interface
this is a Go panic. -/
def otelCounterAddCall (h : Option Nat) (delta : Int) : Except String MEv :=
  match h with
  | none => Except.error "nil otelCounter"
  | some _ => Except.ok (MEv.otelAdd delta)

/-- Embedding of `Counter.Add` (pkg/metrics/metrics.go:239-252): lock,
add the delta to the cached value, capture the post-mutation value,
forward the delta to the exporter handle if it is non-nil (the `defer`
keeps the mutex held during the forward), unlock on return, and return
the captured value. -/
def CounterM.add (c : CounterM) (delta : Int) :
    Except String (Int × CounterM × List MEv) :=
  let v := c.value + delta
  if c.otelCounter.isSome then
    match otelCounterAddCall c.otelCounter delta with
    | Except.error e => Except.error e
    | Except.ok ev =>
        Except.ok (v, { c with value := v }, [MEv.lock, ev, MEv.unlock])
  else Except.ok (v, { c with value := v }, [MEv.lock, MEv.unlock])

/-- Embedding of `Counter.Inc` (pkg/metrics/metrics.go:234-236). -/
def CounterM.inc (c : CounterM) : Except String (Int × CounterM × List MEv) :=
  c.add 1

/-- Embedding of `Counter.Get` (the read accessor of the counter's cached
value, src/unnamed/part_003:66-72; the pkg/metrics variant exposes the
same cached `value` field). -/
def CounterM.get (c : CounterM) : Int :=
  c.value

/-- The `Gauge` struct (pkg/metrics/metrics.go:44-51). -/
structure GaugeM where
  value : Rat
  otelGauge : Option Nat
deriving DecidableEq

/-- Invoking `Set` on the exporter gauge handle; panics on nil. -/
def otelGaugeSetCall (h : Option Nat) (v : Rat) : Except String MEv :=
  match h with
  | none => Except.error "nil otelGauge"
  | some _ => Except.ok (MEv.otelSet v)

/-- Embedding of `Gauge.Set` (pkg/metrics/metrics.go:255-265): store the
value and forward the absolute value to a non-nil exporter handle. -/
def GaugeM.set (g : GaugeM) (v : Rat) : Except String (GaugeM × List MEv) :=
  if g.otelGauge.isSome then
    match otelGaugeSetCall g.otelGauge v with
    | Except.error e => Except.error e
    | Except.ok ev => Except.ok ({ g with value := v }, [MEv.lock, ev, MEv.unlock])
  else Except.ok ({ g with value := v }, [MEv.lock, MEv.unlock])

/-- Embedding of `Gauge.Add` (pkg/metrics/metrics.go:278-288): add the
delta to the cached value and forward the absolute post-mutation value
(gauges are not deltas) to a non-nil exporter handle. -/
def GaugeM.add (g : GaugeM) (delta : Rat) : Except String (GaugeM × List MEv) :=
  let v := g.value + delta
  if g.otelGauge.isSome then
    match otelGaugeSetCall g.otelGauge v with
    | Except.error e => Except.error e
    | Except.ok ev => Except.ok ({ g with value := v }, [MEv.lock, ev, MEv.unlock])
  else Except.ok ({ g with value := v }, [MEv.lock, MEv.unlock])

/-- Embedding of `Gauge.Inc` (pkg/metrics/metrics.go:268-270). -/
def GaugeM.inc (g : GaugeM) : Except String (GaugeM × List MEv) :=
  g.add 1

/-- Embedding of `Gauge.Dec` (pkg/metrics/metrics.go:273-275). -/
def GaugeM.dec (g : GaugeM) : Except String (GaugeM × List MEv) :=
  g.add (-1)

/-- Embedding of `Gauge.Get` (src/unnamed/part_003:121-125; reads the
cached value under the read lock). -/
def GaugeM.get (g : GaugeM) : Rat :=
  g.value

/-- The `Histogram` struct (pkg/metrics/metrics.go:54-60): no locally
cached value, only the optional exporter handle. -/
structure HistogramM where
  otelHistogram : Option Nat
deriving DecidableEq

/-- Invoking `Record` on the exporter histogram handle; panics on nil. -/
def otelHistogramRecordCall (h : Option Nat) (v : Rat) : Except String MEv :=
  match h with
  | none => Except.error "nil otelHistogram"
  | some _ => Except.ok (MEv.otelRecord v)

/-- Embedding of `Histogram.Record` (pkg/metrics/metrics.go:291-298):
under the lock, forward the observation to a non-nil exporter handle. -/
def HistogramM.record (h : HistogramM) (v : Rat) :
    Except String (HistogramM × List MEv) :=
  if h.otelHistogram.isSome then
    match otelHistogramRecordCall h.otelHistogram v with
    | Except.error e => Except.error e
    | Except.ok ev => Except.ok (h, [MEv.lock, ev, MEv.unlock])
  else Except.ok (h, [MEv.lock, MEv.unlock])

/-- The claim's lock discipline for `Counter.Add`: the delta is forwarded
to the exporter only after (strictly later in the trace than) the mutex
release. -/
def forwardAfterUnlock (tr : List MEv) (delta : Int) : Prop :=
  ∃ i j : Fin tr.length,
    (i : Nat) < (j : Nat) ∧ tr.get i = MEv.unlock ∧ tr.get j = MEv.otelAdd delta

instance (tr : List MEv) (delta : Int) : Decidable (forwardAfterUnlock tr delta) := by
  unfold forwardAfterUnlock
  infer_instance

/-- C7 (counterexample): in the current `Counter.Add`
(pkg/metrics/metrics.go:239-252) the unlock is deferred to the end of
the method, so the delta is forwarded to the exporter handle while the
lock is still held: on the concrete counter below, the trace of
`Add(1)` is lock–forward–unlock, and the forward does not occur after
the release — refuting the claim that the forward happens outside the
lock. -/
theorem counterAdd_forward_not_outside_lock :
    CounterM.add { value := 0, otelCounter := some 0 } 1
      = Except.ok (1, { value := 1, otelCounter := some 0 },
          [MEv.lock, MEv.otelAdd 1, MEv.unlock])
    ∧ ¬ forwardAfterUnlock [MEv.lock, MEv.otelAdd 1, MEv.unlock] 1 :=
  ⟨rfl, by decide⟩

/-- C7 (amended): `Counter.Add(delta)` adds the delta to the cached value
under the primitive's own lock and returns the post-mutation value
(`Inc()` is exactly `Add(1)`); when an exporter handle is present it
forwards the delta itself — not the absolute accumulated value — but it
does so while still holding the lock, since the unlock is deferred to
the end of the method (the historical variant in src/unnamed/part_003
is the one that forwards after the release). -/
theorem counterAdd_spec (c : CounterM) (delta : Int)
    (h : c.otelCounter.isSome = true) :
    CounterM.add c delta
      = Except.ok (c.value + delta, { c with value := c.value + delta },
          [MEv.lock, MEv.otelAdd delta, MEv.unlock])
    ∧ CounterM.inc c = CounterM.add c 1 := by
  constructor
  · cases hc : c.otelCounter with
    | none => rw [hc] at h; exact absurd h (by simp)
    | some i => simp [CounterM.add, hc, otelCounterAddCall]
  · rfl

/-- Witness for the amended C7 on a concrete counter with a handle. -/
theorem counterAdd_spec_witness :
    CounterM.add { value := 5, otelCounter := some 3 } 2
      = Except.ok (7, { value := 7, otelCounter := some 3 },
          [MEv.lock, MEv.otelAdd 2, MEv.unlock])
    ∧ CounterM.inc { value := 5, otelCounter := some 3 }
      = CounterM.add { value := 5, otelCounter := some 3 } 1 :=
  counterAdd_spec { value := 5, otelCounter := some 3 } 2 (by decide)

/-- C9: with a nil/absent exporter handle, every mutation of the three
primitives completes normally — no panic (`Except.error` is never
produced) and no error value — no exporter event appears in the trace,
and local bookkeeping still works: the cached value is updated and
`Get()` returns it. -/
theorem nil_handle_mutations_safe :
    (∀ (c : CounterM) (delta : Int), c.otelCounter = none →
        CounterM.add c delta
          = Except.ok (c.value + delta, { c with value := c.value + delta },
              [MEv.lock, MEv.unlock])
        ∧ CounterM.get { c with value := c.value + delta } = c.value + delta)
    ∧ (∀ (g : GaugeM) (v : Rat), g.otelGauge = none →
        GaugeM.set g v
          = Except.ok ({ g with value := v }, [MEv.lock, MEv.unlock])
        ∧ GaugeM.get { g with value := v } = v)
    ∧ (∀ (g : GaugeM) (delta : Rat), g.otelGauge = none →
        GaugeM.add g delta
          = Except.ok ({ g with value := g.value + delta },
              [MEv.lock, MEv.unlock])
        ∧ GaugeM.inc g = GaugeM.add g 1
        ∧ GaugeM.dec g = GaugeM.add g (-1)
        ∧ GaugeM.get { g with value := g.value + delta } = g.value + delta)
    ∧ (∀ (h : HistogramM) (v : Rat), h.otelHistogram = none →
        HistogramM.record h v = Except.ok (h, [MEv.lock, MEv.unlock])) := by
  refine ⟨?_, ?_, ?_, ?_⟩
  · intro c delta hc
    exact ⟨by simp [CounterM.add, hc], rfl⟩
  · intro g v hg
    exact ⟨by simp [GaugeM.set, hg], rfl⟩
  · intro g delta hg
    exact ⟨by simp [GaugeM.add, hg], rfl, rfl, rfl⟩
  · intro h v hh
    simp [HistogramM.record, hh]

/-- Witness for C9 on concrete handle-less primitives. -/
theorem nil_handle_mutations_safe_witness :
    CounterM.add { value := 4, otelCounter := none } 3
      = Except.ok (7, { value := 7, otelCounter := none },
          [MEv.lock, MEv.unlock])
    ∧ GaugeM.set { value := 0, otelGauge := none } 2
      = Except.ok ({ value := 2, otelGauge := none }, [MEv.lock, MEv.unlock])
    ∧ GaugeM.add { value := 1, otelGauge := none } 2
      = Except.ok ({ value := 1 + 2, otelGauge := none }, [MEv.lock, MEv.unlock])
    ∧ HistogramM.record { otelHistogram := none } 9
      = Except.ok ({ otelHistogram := none }, [MEv.lock, MEv.unlock]) :=
  ⟨(nil_handle_mutations_safe.1 { value := 4, otelCounter := none } 3 rfl).1,
   (nil_handle_mutations_safe.2.1 { value := 0, otelGauge := none } 2 rfl).1,
   (nil_handle_mutations_safe.2.2.1 { value := 1, otelGauge := none } 2 rfl).1,
   nil_handle_mutations_safe.2.2.2 { otelHistogram := none } 9 rfl⟩

/-! ## Default-label copies in the convenience wrappers

Go maps are reference values: writing through one reference mutates the
map every holder sees.  To state that `addDefaultLabels`
(src/unnamed/part_007:117-128) and the label copy at the top of
`OtelClient.IncrementCounter` (pkg/client/otel.go:168-186) do NOT mutate
the caller's map, maps live in a small heap indexed by `Nat` references;
`make(map...)` allocates a fresh cell and `m[k] = v` writes through a
reference.  Both functions run the same loop — allocate an empty copy,
copy every caller pair into it, then store the two default labels — so
the loop is embedded once (`copyWithDefaults`) and instantiated with
each variant's literal keys. -/

/-- Read `m[k]` of a Go map value embedded as an ordered pair list. -/
def mapGet (m : LabelMap) (k : String) : Option String :=
  match m with
  | [] => none
  | (k', v) :: rest => if k' = k then some v else mapGet rest k

/-- Write `m[k] = v` on a Go map value: overwrite the binding in place if
the key is present, otherwise append it (a fresh key joins the iteration
order at some position; appending fixes one). -/
def mapWrite (m : LabelMap) (k v : String) : LabelMap :=
  match m with
  | [] => [(k, v)]
  | (k', v') :: rest =>
      if k' = k then (k, v) :: rest else (k', v') :: mapWrite rest k v

/-- Heap of Go map values; a map reference is an index below `next`. -/
structure Heap where
  maps : Nat → LabelMap
  next : Nat

/-- `make(map[string]string)`: allocate a fresh cell. -/
def Heap.alloc (h : Heap) (m : LabelMap) : Heap × Nat :=
  ({ maps := fun i => if i = h.next then m else h.maps i, next := h.next + 1 },
    h.next)

/-- Write through a map reference. -/
def Heap.write (h : Heap) (r : Nat) (k v : String) : Heap :=
  { h with maps := fun i => if i = r then mapWrite (h.maps r) k v else h.maps i }

/-- Loop body of the copy loops: `labelsCopy[k] = v`. -/
def heapWriteStep (copy : Nat) (a : Heap) (kv : String × String) : Heap :=
  a.write copy kv.1 kv.2

/-- Pure-value counterpart of the loop body. -/
def mapWriteStep (m : LabelMap) (kv : String × String) : LabelMap :=
  mapWrite m kv.1 kv.2

/-- The shared shape of both label-copy helpers: allocate an empty copy,
copy every pair of the caller's map into it, then set the two default
labels, returning the copy's reference.  The caller's reference `labels`
is only ever read. -/
def copyWithDefaults (h : Heap) (labels : Nat) (k1 v1 k2 v2 : String) :
    Heap × Nat :=
  let a := h.alloc []
  let copy := a.2
  let h2 := (h.maps labels).foldl (heapWriteStep copy) a.1
  let h3 := h2.write copy k1 v1
  let h4 := h3.write copy k2 v2
  (h4, copy)

/-- Embedding of `gotel.addDefaultLabels` (src/unnamed/part_007:117-128):
copy the caller's labels and add `service.name` and `environment` from
the configuration. -/
def addDefaultLabels (h : Heap) (labels : Nat) (serviceName environment : String) :
    Heap × Nat :=
  copyWithDefaults h labels "service.name" serviceName "environment" environment

/-- Embedding of the label copy at the top of
`OtelClient.IncrementCounter` (pkg/client/otel.go:168-180; `SetGauge` and
`RecordHistogram` repeat it verbatim): copy the caller's labels and add
`service_name` and `service_environment`; the copy is then used for key
derivation and the exporter call. -/
def incrementCounterLabelsCopy (h : Heap) (labels : Nat)
    (serviceName environment : String) : Heap × Nat :=
  copyWithDefaults h labels "service_name" serviceName
    "service_environment" environment

theorem mapGet_write_self (m : LabelMap) (k v : String) :
    mapGet (mapWrite m k v) k = some v := by
  induction m with
  | nil => simp [mapWrite, mapGet]
  | cons kv rest ih =>
      rw [mapWrite]
      by_cases hk : kv.1 = k
      · rw [if_pos hk, mapGet, if_pos rfl]
      · rw [if_neg hk, mapGet, if_neg hk]
        exact ih

theorem mapGet_write_ne (m : LabelMap) (k v k' : String) (hne : k ≠ k') :
    mapGet (mapWrite m k v) k' = mapGet m k' := by
  induction m with
  | nil => simp [mapWrite, mapGet, hne]
  | cons kv rest ih =>
      rw [mapWrite]
      by_cases hk : kv.1 = k
      · rw [if_pos hk, mapGet, if_neg hne, mapGet, hk, if_neg hne]
      · rw [if_neg hk, mapGet, mapGet]
        by_cases hk' : kv.1 = k'
        · rw [if_pos hk', if_pos hk']
        · rw [if_neg hk', if_neg hk']
          exact ih

theorem mapGet_eq_none_of_not_mem (l : LabelMap) (k : String)
    (h : k ∉ l.map Prod.fst) : mapGet l k = none := by
  induction l with
  | nil => rfl
  | cons kv rest ih =>
      rw [mapGet]
      rw [List.map_cons, List.mem_cons] at h
      push_neg at h
      rw [if_neg (fun he => h.1 he.symm)]
      exact ih h.2

theorem foldl_mapWrite_get (pairs : LabelMap) (m0 : LabelMap) (k : String)
    (hnd : (pairs.map Prod.fst).Nodup) :
    mapGet (pairs.foldl mapWriteStep m0) k
      = ((mapGet pairs k).rec (mapGet m0 k) fun v => some v) := by
  induction pairs generalizing m0 with
  | nil => rfl
  | cons kv rest ih =>
      rw [List.map_cons, List.nodup_cons] at hnd
      rw [List.foldl_cons]
      rw [ih (mapWriteStep m0 kv) hnd.2]
      by_cases hk : kv.1 = k
      · have hrest : mapGet rest k = none := by
          apply mapGet_eq_none_of_not_mem
          rw [← hk]
          exact hnd.1
        rw [mapGet, if_pos hk, hrest]
        show mapGet (mapWrite m0 kv.1 kv.2) k = some kv.2
        rw [hk, mapGet_write_self]
      · rw [mapGet, if_neg hk]
        cases hr : mapGet rest k with
        | some v => rfl
        | none =>
            show mapGet (mapWrite m0 kv.1 kv.2) k = mapGet m0 k
            exact mapGet_write_ne m0 kv.1 kv.2 k hk

theorem heapWrite_maps_ne (h : Heap) (r : Nat) (k v : String) (r' : Nat)
    (hne : r' ≠ r) : (h.write r k v).maps r' = h.maps r' := by
  simp [Heap.write, hne]

theorem heapWrite_maps_self (h : Heap) (r : Nat) (k v : String) :
    (h.write r k v).maps r = mapWrite (h.maps r) k v := by
  simp [Heap.write]

theorem foldl_heapWrite_maps_ne (pairs : LabelMap) (copy r : Nat)
    (hne : r ≠ copy) (a : Heap) :
    (pairs.foldl (heapWriteStep copy) a).maps r = a.maps r := by
  induction pairs generalizing a with
  | nil => rfl
  | cons kv rest ih =>
      rw [List.foldl_cons, ih]
      exact heapWrite_maps_ne a copy kv.1 kv.2 r hne

theorem foldl_heapWrite_maps_self (pairs : LabelMap) (copy : Nat) (a : Heap) :
    (pairs.foldl (heapWriteStep copy) a).maps copy
      = pairs.foldl mapWriteStep (a.maps copy) := by
  induction pairs generalizing a with
  | nil => rfl
  | cons kv rest ih =>
      rw [List.foldl_cons, List.foldl_cons, ih]
      rw [show heapWriteStep copy a kv = a.write copy kv.1 kv.2 from rfl]
      rw [heapWrite_maps_self]
      rfl

theorem copyWithDefaults_spec (h : Heap) (labels : Nat) (k1 v1 k2 v2 : String)
    (href : labels < h.next) (h12 : k1 ≠ k2)
    (hnd : ((h.maps labels).map Prod.fst).Nodup) :
    (copyWithDefaults h labels k1 v1 k2 v2).1.maps labels = h.maps labels
    ∧ (copyWithDefaults h labels k1 v1 k2 v2).2 ≠ labels
    ∧ mapGet ((copyWithDefaults h labels k1 v1 k2 v2).1.maps
        (copyWithDefaults h labels k1 v1 k2 v2).2) k1 = some v1
    ∧ mapGet ((copyWithDefaults h labels k1 v1 k2 v2).1.maps
        (copyWithDefaults h labels k1 v1 k2 v2).2) k2 = some v2
    ∧ ∀ k, k ≠ k1 → k ≠ k2 →
        mapGet ((copyWithDefaults h labels k1 v1 k2 v2).1.maps
          (copyWithDefaults h labels k1 v1 k2 v2).2) k
          = mapGet (h.maps labels) k := by
  have hne : labels ≠ h.next := Nat.ne_of_lt href
  have hcopy : (copyWithDefaults h labels k1 v1 k2 v2).2 = h.next := rfl
  have hframe : (copyWithDefaults h labels k1 v1 k2 v2).1.maps labels
      = h.maps labels := by
    show ((((h.maps labels).foldl (heapWriteStep h.next)
        (h.alloc []).1).write h.next k1 v1).write h.next k2 v2).maps labels
      = h.maps labels
    rw [heapWrite_maps_ne _ _ _ _ _ hne, heapWrite_maps_ne _ _ _ _ _ hne,
      foldl_heapWrite_maps_ne _ _ _ hne]
    simp [Heap.alloc, hne]
  have hcontent : (copyWithDefaults h labels k1 v1 k2 v2).1.maps h.next
      = mapWrite (mapWrite ((h.maps labels).foldl mapWriteStep []) k1 v1) k2 v2 := by
    show ((((h.maps labels).foldl (heapWriteStep h.next)
        (h.alloc []).1).write h.next k1 v1).write h.next k2 v2).maps h.next
      = _
    rw [heapWrite_maps_self, heapWrite_maps_self, foldl_heapWrite_maps_self]
    simp [Heap.alloc]
  refine ⟨hframe, by rw [hcopy]; exact fun he => hne he.symm, ?_, ?_, ?_⟩
  · rw [hcopy, hcontent, mapGet_write_ne _ _ _ _ h12.symm, mapGet_write_self]
  · rw [hcopy, hcontent, mapGet_write_self]
  · intro k hk1 hk2
    rw [hcopy, hcontent, mapGet_write_ne _ _ _ _ (fun he => hk2 he.symm),
      mapGet_write_ne _ _ _ _ (fun he => hk1 he.symm),
      foldl_mapWrite_get _ _ _ hnd]
    cases mapGet (h.maps labels) k <;> rfl

/-- C10: the convenience wrappers' label helpers build a fresh copy of
the caller's labels map and never write through the caller's reference:
after `addDefaultLabels` (and after the copy loop of
`OtelClient.IncrementCounter`/`SetGauge`/`RecordHistogram`) the caller's
map is unchanged, the copy — which is what key derivation and the
exporter calls then receive — holds the two default labels (service name
and environment) with the configured values, and every caller-supplied
pair under any other key is preserved in the copy. -/
theorem wrappers_copy_labels_without_mutation (h : Heap) (labels : Nat)
    (serviceName environment : String) (href : labels < h.next)
    (hnd : ((h.maps labels).map Prod.fst).Nodup) :
    (addDefaultLabels h labels serviceName environment).1.maps labels
        = h.maps labels
    ∧ (addDefaultLabels h labels serviceName environment).2 ≠ labels
    ∧ mapGet ((addDefaultLabels h labels serviceName environment).1.maps
        (addDefaultLabels h labels serviceName environment).2) "service.name"
        = some serviceName
    ∧ mapGet ((addDefaultLabels h labels serviceName environment).1.maps
        (addDefaultLabels h labels serviceName environment).2) "environment"
        = some environment
    ∧ (∀ k, k ≠ "service.name" → k ≠ "environment" →
        mapGet ((addDefaultLabels h labels serviceName environment).1.maps
          (addDefaultLabels h labels serviceName environment).2) k
          = mapGet (h.maps labels) k)
    ∧ (incrementCounterLabelsCopy h labels serviceName environment).1.maps labels
        = h.maps labels
    ∧ mapGet ((incrementCounterLabelsCopy h labels serviceName environment).1.maps
        (incrementCounterLabelsCopy h labels serviceName environment).2)
        "service_name" = some serviceName
    ∧ mapGet ((incrementCounterLabelsCopy h labels serviceName environment).1.maps
        (incrementCounterLabelsCopy h labels serviceName environment).2)
        "service_environment" = some environment
    ∧ (∀ k, k ≠ "service_name" → k ≠ "service_environment" →
        mapGet ((incrementCounterLabelsCopy h labels serviceName environment).1.maps
          (incrementCounterLabelsCopy h labels serviceName environment).2) k
          = mapGet (h.maps labels) k) := by
  have h1 := copyWithDefaults_spec h labels "service.name" serviceName
    "environment" environment href (by decide) hnd
  have h2 := copyWithDefaults_spec h labels "service_name" serviceName
    "service_environment" environment href (by decide) hnd
  exact ⟨h1.1, h1.2.1, h1.2.2.1, h1.2.2.2.1, h1.2.2.2.2,
    h2.1, h2.2.2.1, h2.2.2.2.1, h2.2.2.2.2⟩

/-- Concrete heap for the C10 witness: one caller map `[a ↦ 1]` at
reference 0. -/
def heapW : Heap :=
  { maps := fun i => if i = 0 then [("a", "1")] else [], next := 1 }

/-- Witness for C10 on `heapW`. -/
theorem wrappers_copy_labels_without_mutation_witness :
    (addDefaultLabels heapW 0 "svc" "prod").1.maps 0 = heapW.maps 0
    ∧ mapGet ((addDefaultLabels heapW 0 "svc" "prod").1.maps
        (addDefaultLabels heapW 0 "svc" "prod").2) "service.name" = some "svc"
    ∧ mapGet ((addDefaultLabels heapW 0 "svc" "prod").1.maps
        (addDefaultLabels heapW 0 "svc" "prod").2) "environment" = some "prod"
    ∧ mapGet ((addDefaultLabels heapW 0 "svc" "prod").1.maps
        (addDefaultLabels heapW 0 "svc" "prod").2) "a"
        = mapGet (heapW.maps 0) "a"
    ∧ mapGet ((incrementCounterLabelsCopy heapW 0 "svc" "prod").1.maps
        (incrementCounterLabelsCopy heapW 0 "svc" "prod").2) "service_name"
        = some "svc" :=
  ⟨(wrappers_copy_labels_without_mutation heapW 0 "svc" "prod" (by decide)
      (by decide)).1,
   (wrappers_copy_labels_without_mutation heapW 0 "svc" "prod" (by decide)
      (by decide)).2.2.1,
   (wrappers_copy_labels_without_mutation heapW 0 "svc" "prod" (by decide)
      (by decide)).2.2.2.1,
   (wrappers_copy_labels_without_mutation heapW 0 "svc" "prod" (by decide)
      (by decide)).2.2.2.2.1 "a" (by decide) (by decide),
   (wrappers_copy_labels_without_mutation heapW 0 "svc" "prod" (by decide)
      (by decide)).2.2.2.2.2.2.1⟩

end Gotel
